import Mathlib

/-!
Shallow embedding of `traffic_stops.py`, a pandas-based traffic stop
analysis module, together with theorems settling the specification claims.

Modelling conventions:
- A pandas cell value is `Value`: a string, an integer, a boolean or
  null (NaN).  Driver ages are rational numbers where the age-binning
  function is concerned (the source stores them as floats; every
  comparison the claims exercise is exact).
- A `Table` is a list of column names plus a list of rows; a row is an
  association list from column names to values.  Reading a column a row
  does not carry yields null, which models NaN.
- Functions that can return `None` in Python return `Option`; functions
  that can additionally raise return `Except String (Option _)`, where
  `.error` models a raised exception and `.ok none` models `return None`.
- `pd.cut` (default `right=True`), `Series.between` (inclusive, with
  numeric/boolean and string orderings and `TypeError` on incomparable
  operands), `Series.isin`, `fillna`, left `merge` on the stop id
  (null keys match each other, as pandas merges by factorization),
  `groupby.size` (null group keys dropped), `unstack` + `fillna(0)` and
  `sort_values` are each embedded following the pandas semantics the
  source relies on.  Two deliberate narrowings: group and outcome
  labels are kept in first-occurrence order rather than pandas' sorted
  order (no claim depends on that order), and `get_rates` guards its
  successful branch with a same-shape check on the outcome labels —
  pandas would instead sort a mixed-type label set through a fallback
  and return a frame.  The guard never fires on the specification's
  schema (a boolean search-conducted flag, string outcome vocabularies),
  which is the domain the claims about rate frames quantify over.
-/

/-- A pandas cell value: null models NaN/missing. -/
inductive Value : Type where
  | null : Value
  | bool : Bool → Value
  | int : Int → Value
  | str : String → Value
deriving DecidableEq, Repr

/-- A row is an association list from column names to cell values. -/
abbrev Row : Type := List (String × Value)

/-- Reading column `c` of row `r`; absent columns read as null (NaN). -/
def getCol (r : Row) (c : String) : Value :=
  (List.lookup c r).getD Value.null

/-- Writing column `c` of row `r` (pandas column assignment). -/
def setCol (r : Row) (c : String) (v : Value) : Row :=
  (c, v) :: List.filter (fun p => p.fst ≠ c) r

/-- A dataframe: its column names and its rows. -/
structure Table : Type where
  cols : List String
  rows : List Row
deriving DecidableEq

-- Column-name constants of the source module.

def ARREST_CITATION : String := "arrest_or_citation"
def IS_ARRESTED : String := "is_arrested"
def YEAR_COL : String := "stop_year"
def MONTH_COL : String := "stop_month"
def DATE_COL : String := "stop_date"
def STOP_SEASON : String := "stop_season"
def STOP_OUTCOME : String := "stop_outcome"
def SEARCH_TYPE : String := "search_type"
def SEARCH_CONDUCTED : String := "search_conducted"
def AGE_CAT : String := "age_category"
def OFFICER_ID : String := "officer_id"
def STOP_ID : String := "stop_id"
def DRIVER_AGE : String := "driver_age"
def DRIVER_RACE : String := "driver_race"
def DRIVER_GENDER : String := "driver_gender"
def VIOLATION : String := "violation"

/-- `AGE_BINS = [0, 21, 36, 50, 65, 100]`. -/
def AGE_BINS : List ℚ := [0, 21, 36, 50, 65, 100]

/-- `AGE_LABELS = ['juvenile', 'young_adult', 'adult', 'middle_aged', 'senior']`. -/
def AGE_LABELS : List String :=
  ["juvenile", "young_adult", "adult", "middle_aged", "senior"]

/-- `SUCCESS_STOPS = ['Arrest', 'Citation']`. -/
def SUCCESS_STOPS : List Value := [Value.str "Arrest", Value.str "Citation"]

/-- `SEARCHING_TYPES = ['Probable Cause', 'Incident to Arrest']`. -/
def SEARCHING_TYPES : List Value :=
  [Value.str "Probable Cause", Value.str "Incident to Arrest"]

/-- `pandas.cut` with its default `right=True`: scans consecutive bin
edges `lo, hi` and assigns the matching label when `lo < x ≤ hi`;
a value outside every bin gets no label (NaN category). -/
def cutBins : List ℚ → List String → ℚ → Option String
  | lo :: hi :: bs, lab :: labs, x =>
    if lo < x ∧ x ≤ hi then some lab else cutBins (hi :: bs) labs x
  | _, _, _ => none

/-- The derived `age_category` of a driver age:
`pd.cut(x=df[DRIVER_AGE], bins=AGE_BINS, labels=AGE_LABELS)` applied to
one cell; a missing (NaN) age yields a missing category. -/
def age_category (a : Option ℚ) : Option String :=
  match a with
  | none => none
  | some x => cutBins AGE_BINS AGE_LABELS x

/-- Numeric view of a cell for ordering: Python orders booleans with
numbers (`False == 0`, `True == 1`). -/
def numVal (v : Value) : Option Int :=
  match v with
  | Value.int n => some n
  | Value.bool b => some (if b then 1 else 0)
  | _ => none

/-- Elementwise pandas `<=`: numbers and booleans compare numerically,
strings lexicographically, a null (NaN) operand compares false, and a
genuinely incomparable pair (a number against a string) has no result:
the vectorized comparison raises `TypeError`. -/
def valueLeE (a b : Value) : Option Bool :=
  match a, b with
  | Value.null, _ => some false
  | _, Value.null => some false
  | Value.str s, Value.str t => some (decide (s ≤ t))
  | x, y =>
    match numVal x, numVal y with
    | some m, some n => some (decide (m ≤ n))
    | _, _ => none

/-- One cell of `Series.between(lo, hi)` (inclusive on both ends, the
pandas default): `lo <= v` and `v <= hi`, with no result when either
comparison is undefined. -/
def tryBetween (v lo hi : Value) : Option Bool :=
  match valueLeE lo v, valueLeE v hi with
  | some a, some b => some (a && b)
  | _, _ => none

/-- `apply_val_filters(df, filter_info)`: for each `(column, allowed)`
pair in order, return `None` when the column is absent, else keep the
rows whose value is a member of the allowed list (`Series.isin`). -/
def apply_val_filters (df : Table) (filter_info : List (String × List Value)) :
    Option Table :=
  match filter_info with
  | [] => some df
  | (key, vals) :: rest =>
    if df.cols.contains key then
      apply_val_filters
        { cols := df.cols
          rows := df.rows.filter (fun r => vals.contains (getCol r key)) }
        rest
    else none

/-- `apply_range_filters(df, filter_info)`: for each
`(column, (low, high))` pair in order, return `None` when the column is
absent; otherwise `df[key].between(value[0], value[1])` is evaluated
over the whole column — raising `TypeError` when any cell is
incomparable with a bound — and the rows whose value lies between low
and high inclusive are kept. -/
def apply_range_filters (df : Table) (filter_info : List (String × Value × Value)) :
    Except String (Option Table) :=
  match filter_info with
  | [] => Except.ok (some df)
  | (key, lo, hi) :: rest =>
    if df.cols.contains key then
      if df.rows.any (fun r => (tryBetween (getCol r key) lo hi).isNone) then
        Except.error "TypeError: not supported between operand types"
      else
        apply_range_filters
          { cols := df.cols
            rows := df.rows.filter
              (fun r => (tryBetween (getCol r key) lo hi).getD false) }
          rest
    else Except.ok none

/-- The group key of a row under group-by columns `cc` (the tuple of the
row's values in those columns). -/
def rowKey (cc : List String) (r : Row) : List Value :=
  cc.map (fun c => getCol r c)

/-- Numeric view of a cell, for aggregation over a numeric column;
non-numeric and null cells are skipped, as pandas aggregations skip NaN. -/
def toQ (v : Value) : Option ℚ :=
  match v with
  | Value.int n => some (n : ℚ)
  | _ => none

/-- Generic insertion by a boolean comparison (ascending). -/
def insertLe {α : Type} (le : α → α → Bool) (x : α) : List α → List α
  | [] => [x]
  | y :: ys => if le x y then x :: y :: ys else y :: insertLe le x ys

/-- Generic insertion sort by a boolean comparison (ascending). -/
def sortLe {α : Type} (le : α → α → Bool) : List α → List α
  | [] => []
  | x :: xs => insertLe le x (sortLe le xs)

/-- Mean of a list of rationals, none when the list is empty
(pandas mean of no observations is NaN). -/
def qMean (l : List ℚ) : Option ℚ :=
  if l.isEmpty then none else some (l.sum / (l.length : ℚ))

/-- `np.median`: middle element of the sorted values, or the average of
the two middle elements for an even count; none when empty. -/
def qMedian (l : List ℚ) : Option ℚ :=
  let s := sortLe (fun a b => decide (a ≤ b)) l
  if s.length = 0 then none
  else if s.length % 2 = 1 then s.get? (s.length / 2)
  else
    match s.get? (s.length / 2 - 1), s.get? (s.length / 2) with
    | some a, some b => some ((a + b) / 2)
    | _, _ => none

/-- Result shape of `get_summary_statistics`: one row per group key,
carrying (median, mean, mean_diff) of the summary column. -/
structure StatTable : Type where
  rows : List (List Value × (Option ℚ × Option ℚ × Option ℚ))
deriving DecidableEq

/-- The numeric values of column `c` over the rows `rs`, NaN skipped. -/
def numVals (rs : List Row) (c : String) : List ℚ :=
  rs.filterMap (fun r => toQ (getCol r c))

/-- `get_summary_statistics(df, group_col_list, summary_col)`: `None` on
an empty group list or a missing group column; a missing summary column
raises `KeyError` at `df[summary_col].mean()`.  Otherwise one row per
group (null group keys dropped, as `groupby` drops them) with the
group median and mean of the summary column and `mean_diff` = group
mean minus the global mean. -/
def get_summary_statistics (df : Table) (group_col_list : List String)
    (summary_col : String) : Except String (Option StatTable) :=
  if group_col_list.isEmpty then Except.ok none
  else if group_col_list.any (fun c => !(df.cols.contains c)) then Except.ok none
  else if !(df.cols.contains summary_col) then
    Except.error ("KeyError: " ++ summary_col)
  else
    let globalMean := qMean (numVals df.rows summary_col)
    let groupRows := df.rows.filter
      (fun r => group_col_list.all (fun c => !(getCol r c == Value.null)))
    let keys := (groupRows.map (rowKey group_col_list)).dedup
    Except.ok (some
      { rows := keys.map (fun g =>
          let vals := numVals
            (groupRows.filter (fun r => rowKey group_col_list r == g)) summary_col
          (g, (qMedian vals, qMean vals,
            match qMean vals, globalMean with
            | some m, some gm => some (m - gm)
            | _, _ => none))) })

/-- Whether two values have the same shape (pandas can order two labels
only when they have comparable types; `True < "x"` raises `TypeError`). -/
def sameCtor (a b : Value) : Bool :=
  match a, b with
  | Value.null, Value.null => true
  | Value.bool _, Value.bool _ => true
  | Value.int _, Value.int _ => true
  | Value.str _, Value.str _ => true
  | _, _ => false

/-- Whether every pair of values in the list is mutually orderable. -/
def allSameCtor : List Value → Bool
  | [] => true
  | v :: vs => vs.all (fun w => sameCtor v w) && allSameCtor vs

/-- Result shape of `get_rates`: the distinct outcome values (the
columns of the unstacked frame) and, per group key, the rate of each
outcome value in that group. -/
structure RateTable : Type where
  cols : List Value
  rows : List (List Value × List (Value × ℚ))
deriving DecidableEq

/-- `df.groupby(cat_col)`'s member rows: the rows whose group-key cells
are all non-null (pandas drops null group keys). -/
def groupRowsOf (df : Table) (cat_col : List String) : List Row :=
  df.rows.filter (fun r => cat_col.all (fun c => !(getCol r c == Value.null)))

/-- `df.groupby(cat_col + [outcome_col])`'s member rows: group-key cells
and the outcome cell all non-null. -/
def outRowsOf (df : Table) (cat_col : List String) (outcome_col : String) :
    List Row :=
  (groupRowsOf df cat_col).filter (fun r => !(getCol r outcome_col == Value.null))

/-- The distinct group keys of the unstacked rate frame (the groups that
carry at least one counted outcome). -/
def keysOf (df : Table) (cat_col : List String) (outcome_col : String) :
    List (List Value) :=
  ((outRowsOf df cat_col outcome_col).map (rowKey cat_col)).dedup

/-- The distinct outcome values: the columns of the unstacked rate frame. -/
def outcomesOf (df : Table) (cat_col : List String) (outcome_col : String) :
    List Value :=
  ((outRowsOf df cat_col outcome_col).map (fun r => getCol r outcome_col)).dedup

/-- One cell of the rate frame: the count of rows of group `g` with
outcome `v` over the size of group `g` (sizes count null-outcome rows
too, since `counts_per_group` is grouped only by `cat_col`). -/
def rateOf (df : Table) (cat_col : List String) (outcome_col : String)
    (g : List Value) (v : Value) : ℚ :=
  (((outRowsOf df cat_col outcome_col).filter (fun r =>
      rowKey cat_col r == g && getCol r outcome_col == v)).length : ℚ) /
    (((groupRowsOf df cat_col).filter (fun r => rowKey cat_col r == g)).length : ℚ)

/-- The unstacked, zero-filled rate frame
(`outcome_per_group/counts_per_group` unstacked, `fillna(0)`). -/
def rates_table (df : Table) (cat_col : List String) (outcome_col : String) :
    RateTable :=
  { cols := outcomesOf df cat_col outcome_col
    rows := (keysOf df cat_col outcome_col).map (fun g =>
      (g, (outcomesOf df cat_col outcome_col).map (fun v =>
        (v, rateOf df cat_col outcome_col g v)))) }

/-- `get_rates(df, cat_col, outcome_col)`.  The source's column check
loops over `cat_col`, so with an empty `cat_col` no check fires and
`df.groupby([])` raises `ValueError`; with a non-empty `cat_col` any
missing group column or a missing outcome column returns `None`.
Otherwise: group sizes are taken over rows with non-null group keys,
outcome counts over those rows with a non-null outcome, rates are
outcome count over group size, the unstack gives one row per group key
and one column per distinct outcome value, and absent (group, outcome)
cells are `fillna(0)`.  A mixed-type outcome label set is rejected with
an error: this is a domain guard, not a pandas behaviour (pandas would
sort such labels through a mixed-type fallback and return a frame); on
the specification's schema the outcome labels share one shape and the
guard never fires. -/
def get_rates (df : Table) (cat_col : List String) (outcome_col : String) :
    Except String (Option RateTable) :=
  if cat_col.isEmpty then Except.error "ValueError: No group keys passed"
  else if (cat_col.any (fun c => !(df.cols.contains c)))
      || !(df.cols.contains outcome_col) then Except.ok none
  else if !(allSameCtor (outcomesOf df cat_col outcome_col)) then
    Except.error "TypeError: unorderable outcome labels"
  else
    Except.ok (some (rates_table df cat_col outcome_col))

/-- `pd.merge(stops_df, searches_df, on=STOP_ID, how=left)`: every stop
row is kept; a stop with matches contributes one merged row per match,
an unmatched stop keeps its own fields and gets null search fields.
Pandas merges by key factorization, so null join keys match each other,
which plain equality of `Value` reproduces.  (Column-name overlap other
than the key would be suffixed by pandas; the source relies on the two
tables sharing only `stop_id`, and the embedding keeps the left value
for any other shared name.) -/
def merge_left (stops_df searches_df : Table) : Table :=
  let rightCols := searches_df.cols.filter (fun c => c ≠ STOP_ID)
  { cols := stops_df.cols ++ rightCols
    rows := stops_df.rows.flatMap (fun s =>
      let ms := searches_df.rows.filter (fun r =>
        getCol r STOP_ID == getCol s STOP_ID)
      if ms.isEmpty then
        [s ++ rightCols.map (fun c => (c, Value.null))]
      else
        ms.map (fun m => s ++ m.filter (fun p => p.fst ≠ STOP_ID))) }

/-- The search-conducted derivation step of `compute_search_share`: when
the merged table has a `search_conducted` column its NaNs become
`False` (`fillna(False)`); otherwise the column is created as
`np.where(merged[SEARCH_TYPE].isin(SEARCHING_TYPES), True, False)`. -/
def derive_search_conducted (t : Table) : Table :=
  if t.cols.contains SEARCH_CONDUCTED then
    { cols := t.cols
      rows := t.rows.map (fun r =>
        setCol r SEARCH_CONDUCTED
          (if getCol r SEARCH_CONDUCTED = Value.null then Value.bool false
           else getCol r SEARCH_CONDUCTED)) }
  else
    { cols := t.cols ++ [SEARCH_CONDUCTED]
      rows := t.rows.map (fun r =>
        setCol r SEARCH_CONDUCTED
          (Value.bool (SEARCHING_TYPES.contains (getCol r SEARCH_TYPE)))) }

/-- The officers retained by the per-officer gate: the distinct non-null
officer identifiers of `t` (`groupby` drops null keys) whose row count
is at least `M`. -/
def retainedOfficers (t : Table) (M : Nat) : List Value :=
  (((t.rows.map (fun r => getCol r OFFICER_ID)).filter
      (fun v => !(v == Value.null))).dedup).filter
    (fun v =>
      decide (M ≤ (t.rows.filter (fun r => getCol r OFFICER_ID == v)).length))

/-- `merged_df[merged_df[OFFICER_ID].isin(index)]`: the merged table
restricted to rows of a retained officer. -/
def restrictOfficers (t : Table) (M : Nat) : Table :=
  { cols := t.cols
    rows := t.rows.filter (fun r =>
      (retainedOfficers t M).contains (getCol r OFFICER_ID)) }

/-- The single-outcome-column patch of `compute_search_share`: when the
rate table has exactly one column, append the missing one of
`False`/`True` filled with rate 0. -/
def synthesizeMissing (rt : RateTable) : RateTable :=
  if rt.cols.length = 1 then
    if rt.cols.contains (Value.bool false) then
      { cols := rt.cols ++ [Value.bool true]
        rows := rt.rows.map (fun gr => (gr.1, gr.2 ++ [(Value.bool true, 0)])) }
    else
      { cols := rt.cols ++ [Value.bool false]
        rows := rt.rows.map (fun gr => (gr.1, gr.2 ++ [(Value.bool false, 0)])) }
  else rt

/-- The rate a rate-table row assigns to outcome `v` (0 when absent,
matching the `fillna(0)` convention of the construction). -/
def rateAt (gr : List Value × List (Value × ℚ)) (v : Value) : ℚ :=
  (List.lookup v gr.2).getD 0

/-- Ascending order on rate-table rows by their rate for outcome `True`. -/
def rateLeTrue (a b : List Value × List (Value × ℚ)) : Prop :=
  rateAt a (Value.bool true) ≤ rateAt b (Value.bool true)

/-- Boolean form of `rateLeTrue`, the comparison `sort_values(by=True)`
sorts with. -/
def rateLeTrueB (a b : List Value × List (Value × ℚ)) : Bool :=
  decide (rateAt a (Value.bool true) ≤ rateAt b (Value.bool true))

/-- `new_df.sort_values(by=True)`: sort the rows ascending by the rate
of outcome `True`; raises `KeyError` when there is no `True` column. -/
def sort_by_true (rt : RateTable) : Except String (Option RateTable) :=
  if rt.cols.contains (Value.bool true) then
    Except.ok (some { cols := rt.cols, rows := sortLe rateLeTrueB rt.rows })
  else Except.error "KeyError: True"

/-- `compute_search_share(stops_df, searches_df, cat_col, M_stops)`:
left-join, derive the search-conducted flag, gate on per-officer stop
counts (`None` when no officer reaches `M_stops`), restrict to retained
officers, compute rates, patch a single outcome column, and sort by the
`True` rate.  When `get_rates` returns `None` (a missing group column),
`new_df.shape` is read off `None` and `AttributeError` is raised. -/
def compute_search_share (stops_df searches_df : Table) (cat_col : List String)
    (M_stops : Nat) : Except String (Option RateTable) :=
  let merged := derive_search_conducted (merge_left stops_df searches_df)
  if (retainedOfficers merged M_stops).isEmpty then Except.ok none
  else
    match get_rates (restrictOfficers merged M_stops) cat_col SEARCH_CONDUCTED with
    | Except.error e => Except.error e
    | Except.ok none =>
      Except.error "AttributeError: NoneType object has no attribute shape"
    | Except.ok (some rt) => sort_by_true (synthesizeMissing rt)

/-! ## Shared example tables (used by witnesses and counterexamples) -/

/-- A one-column, one-row table. -/
def exTableA : Table := { cols := ["a"], rows := [[("a", Value.int 1)]] }

/-- A stops table: two stops by officer O1 of drivers of races W and B. -/
def exStops : Table :=
  { cols := [STOP_ID, OFFICER_ID, DRIVER_RACE]
    rows := [
      [(STOP_ID, Value.int 1), (OFFICER_ID, Value.str "O1"),
       (DRIVER_RACE, Value.str "W")],
      [(STOP_ID, Value.int 2), (OFFICER_ID, Value.str "O1"),
       (DRIVER_RACE, Value.str "B")]] }

/-- A searches table (no `search_conducted` column): one probable-cause
search against stop 1. -/
def exSearches : Table :=
  { cols := [STOP_ID, SEARCH_TYPE]
    rows := [[(STOP_ID, Value.int 1), (SEARCH_TYPE, Value.str "Probable Cause")]] }

/-- A stops table for rate computations: three rows over race and outcome. -/
def exT5 : Table :=
  { cols := [DRIVER_RACE, STOP_OUTCOME]
    rows := [
      [(DRIVER_RACE, Value.str "W"), (STOP_OUTCOME, Value.str "Arrest")],
      [(DRIVER_RACE, Value.str "W"), (STOP_OUTCOME, Value.str "Citation")],
      [(DRIVER_RACE, Value.str "B"), (STOP_OUTCOME, Value.str "Arrest")]] }

/-- The rate row of group W in `get_rates exT5 [DRIVER_RACE] STOP_OUTCOME`
(unevaluated: the row the rate frame builds for group key `[W]`). -/
def rowW : List Value × List (Value × ℚ) :=
  ([Value.str "W"],
    (outcomesOf exT5 [DRIVER_RACE] STOP_OUTCOME).map
      (fun v => (v, rateOf exT5 [DRIVER_RACE] STOP_OUTCOME [Value.str "W"] v)))

/-- The rate row of group B in `get_rates exT5 [DRIVER_RACE] STOP_OUTCOME`. -/
def rowB : List Value × List (Value × ℚ) :=
  ([Value.str "B"],
    (outcomesOf exT5 [DRIVER_RACE] STOP_OUTCOME).map
      (fun v => (v, rateOf exT5 [DRIVER_RACE] STOP_OUTCOME [Value.str "B"] v)))

/-- A stops table with a single driver race, so that the search-share
frame has one group row: two stops by officer O1, drivers of race W. -/
def exStopsW : Table :=
  { cols := [STOP_ID, OFFICER_ID, DRIVER_RACE]
    rows := [
      [(STOP_ID, Value.int 1), (OFFICER_ID, Value.str "O1"),
       (DRIVER_RACE, Value.str "W")],
      [(STOP_ID, Value.int 2), (OFFICER_ID, Value.str "O1"),
       (DRIVER_RACE, Value.str "W")]] }

/-- The rate frame `compute_search_share exStopsW exSearches [DRIVER_RACE] 1`
computes before its final sort. -/
def rtShareW : RateTable :=
  synthesizeMissing
    (rates_table (restrictOfficers (derive_search_conducted (merge_left exStopsW exSearches)) 1)
      [DRIVER_RACE] SEARCH_CONDUCTED)

/-- The sorted rate frame `compute_search_share exStopsW exSearches
[DRIVER_RACE] 1` returns. -/
def rtShareSorted : RateTable :=
  { cols := rtShareW.cols, rows := sortLe rateLeTrueB rtShareW.rows }

/-! ## Claim C1: age binning -/

/-- C1 counterexample.  The claim reads the age bins as half-open on the
right, placing age 21 in `young_adult` and age 0 in `juvenile`; the
source's `pd.cut` call uses the default `right=True`, so the bins are
`(0,21], (21,36], (36,50], (50,65], (65,100]`: age exactly 21 is
`juvenile`, not `young_adult`, and age 0 falls outside every bin. -/
theorem claim_C1_counterexample :
    age_category (some 21) = some "juvenile" ∧
    age_category (some 21) ≠ some "young_adult" ∧
    age_category (some 0) ≠ some "juvenile" := by
  refine ⟨?_, ?_, ?_⟩ <;> decide

/-- C1 (amended): the derived age category follows the left-open bins
`(0,21], (21,36], (36,50], (50,65], (65,100]` with labels juvenile,
young_adult, adult, middle_aged, senior: exactly 21 is `juvenile`,
exactly 36 is `young_adult`, age 0 is out of range (null category), age
100 is `senior`, and a missing age yields a null category. -/
theorem claim_C1_age_bins :
    age_category none = none ∧
    age_category (some 21) = some "juvenile" ∧
    age_category (some 36) = some "young_adult" ∧
    age_category (some 0) = none ∧
    age_category (some 100) = some "senior" ∧
    ∀ q : ℚ, age_category (some q) =
      if 0 < q ∧ q ≤ 21 then some "juvenile"
      else if 21 < q ∧ q ≤ 36 then some "young_adult"
      else if 36 < q ∧ q ≤ 50 then some "adult"
      else if 50 < q ∧ q ≤ 65 then some "middle_aged"
      else if 65 < q ∧ q ≤ 100 then some "senior"
      else none := by
  refine ⟨by decide, by decide, by decide, by decide, by decide, ?_⟩
  intro q
  simp only [age_category, AGE_BINS, AGE_LABELS, cutBins]

/-! ## Claim C9: inclusive range filtering -/

/-- A between cell splits into its two one-sided comparisons; an
undefined side yields false under both readings. -/
theorem tryBetween_getD (v lo hi : Value) :
    (tryBetween v lo hi).getD false =
      ((valueLeE lo v).getD false && (valueLeE v hi).getD false) := by
  rw [tryBetween]
  cases valueLeE lo v <;> cases valueLeE v hi <;> simp

/-- C9: when every column named by a range-filter map exists and every
cell of a named column is comparable with its bounds (the domain on
which the program's `low <= value <= high` is defined at all),
`apply_range_filters` keeps exactly the rows satisfying
`low <= value <= high` for every pair, both ends inclusive. -/
theorem claim_C9 (df : Table) (fi : List (String × Value × Value))
    (h : ∀ p ∈ fi, p.fst ∈ df.cols)
    (hcomp : ∀ p ∈ fi, ∀ r ∈ df.rows,
      (tryBetween (getCol r p.fst) p.2.1 p.2.2).isNone = false) :
    apply_range_filters df fi =
      Except.ok (some
        { cols := df.cols
          rows := df.rows.filter (fun r =>
            fi.all (fun p => (valueLeE p.2.1 (getCol r p.fst)).getD false &&
              (valueLeE (getCol r p.fst) p.2.2).getD false)) }) := by
  induction fi generalizing df with
  | nil => simp [apply_range_filters]
  | cons p rest ih =>
    obtain ⟨key, lo, hi⟩ := p
    have hk : key ∈ df.cols := h _ (List.mem_cons_self _ _)
    have hc : df.cols.contains key = true := by
      simp [List.contains, hk]
    have hany : (df.rows.any
        (fun r => (tryBetween (getCol r key) lo hi).isNone)) = false := by
      refine List.any_eq_false.mpr ?_
      intro r hr
      simp [hcomp _ (List.mem_cons_self _ _) r hr]
    rw [apply_range_filters, hc, if_pos rfl, if_neg (by simp [hany]),
      ih { cols := df.cols
           rows := df.rows.filter
             (fun r => (tryBetween (getCol r key) lo hi).getD false) }
        (fun q hq => h q (List.mem_cons_of_mem _ hq))
        (fun q hq r hr =>
          hcomp q (List.mem_cons_of_mem _ hq) r (List.mem_of_mem_filter hr))]
    simp [List.filter_filter, tryBetween_getD, Bool.and_comm, Bool.and_left_comm]

/-- C9 witness: filtering `driver_age` on `[21, 36]` retains the rows
with ages 21 and 36 and drops the rows with ages 20 and 37. -/
theorem claim_C9_witness :
    apply_range_filters
      { cols := [DRIVER_AGE]
        rows := [[(DRIVER_AGE, Value.int 20)], [(DRIVER_AGE, Value.int 21)],
                 [(DRIVER_AGE, Value.int 36)], [(DRIVER_AGE, Value.int 37)]] }
      [(DRIVER_AGE, Value.int 21, Value.int 36)] =
      Except.ok (some
        { cols := [DRIVER_AGE]
          rows := [[(DRIVER_AGE, Value.int 21)], [(DRIVER_AGE, Value.int 36)]] }) := by
  rw [claim_C9 _ _ (by decide) (by decide)]
  rfl

/-! ## Claim C4: unknown columns in filters and rates -/

/-- C4 counterexample, in two parts.  First, a rate request whose
group-column list is empty skips the source's column check entirely
(the check sits inside the loop over `cat_col`), so even though the
named outcome column "zzz" is absent, `get_rates` reaches
`df.groupby([])` and raises `ValueError`.  Second, a range-filter
request naming the absent column "zzz" can still raise: an earlier pair
on the existing column "a" compares the integer cell against string
bounds, and `Series.between` raises `TypeError` before the missing
column is ever looked at. -/
theorem claim_C4_counterexample :
    ("zzz" ∉ exTableA.cols ∧
      get_rates exTableA [] "zzz" =
        Except.error "ValueError: No group keys passed") ∧
    ("zzz" ∉ exTableA.cols ∧
      apply_range_filters exTableA
        [("a", Value.str "x", Value.str "y"), ("zzz", Value.int 0, Value.int 1)] =
        Except.error "TypeError: not supported between operand types") := by
  exact ⟨⟨by decide, rfl⟩, ⟨by decide, rfl⟩⟩

/-- C4 (amended): `apply_val_filters` returns the absent result, never
raising and never letting a partially filtered table escape, whenever
any named column is missing; `apply_range_filters` does so too provided
every named cell is comparable with its bounds (an incomparable pair at
an earlier existing column raises `TypeError` first); and `get_rates`
does so whenever its group-column list is non-empty — with an empty
group-column list it raises even when it names a missing column. -/
theorem claim_C4_missing_columns :
    (∀ (df : Table) (fi : List (String × List Value)),
      (∃ p ∈ fi, p.fst ∉ df.cols) → apply_val_filters df fi = none) ∧
    (∀ (df : Table) (fi : List (String × Value × Value)),
      (∀ p ∈ fi, ∀ r ∈ df.rows,
        (tryBetween (getCol r p.fst) p.2.1 p.2.2).isNone = false) →
      (∃ p ∈ fi, p.fst ∉ df.cols) →
      apply_range_filters df fi = Except.ok none) ∧
    (∀ (df : Table) (cat_col : List String) (outcome_col : String),
      cat_col ≠ [] →
      ((∃ c ∈ cat_col, c ∉ df.cols) ∨ outcome_col ∉ df.cols) →
      get_rates df cat_col outcome_col = Except.ok none) := by
  refine ⟨?_, ?_, ?_⟩
  · intro df fi
    induction fi generalizing df with
    | nil => rintro ⟨p, hp, -⟩; cases hp
    | cons q rest ih =>
      rintro ⟨p, hp, hmiss⟩
      obtain ⟨key, vals⟩ := q
      rw [apply_val_filters]
      rcases List.mem_cons.mp hp with rfl | hp'
      · rw [if_neg]
        simp only [List.contains, List.elem_eq_mem]
        simpa using hmiss
      · by_cases hk : df.cols.contains key = true
        · rw [hk, if_pos rfl]
          exact ih _ ⟨p, hp', hmiss⟩
        · rw [if_neg hk]
  · intro df fi
    induction fi generalizing df with
    | nil =>
      rintro - ⟨p, hp, -⟩
      cases hp
    | cons q rest ih =>
      rintro hcomp ⟨p, hp, hmiss⟩
      obtain ⟨key, lo, hi⟩ := q
      rw [apply_range_filters]
      rcases List.mem_cons.mp hp with rfl | hp'
      · rw [if_neg]
        simp only [List.contains, List.elem_eq_mem]
        simpa using hmiss
      · by_cases hk : df.cols.contains key = true
        · have hany : (df.rows.any
              (fun r => (tryBetween (getCol r key) lo hi).isNone)) = false := by
            refine List.any_eq_false.mpr ?_
            intro r hr
            simp [hcomp _ (List.mem_cons_self _ _) r hr]
          rw [hk, if_pos rfl, if_neg (by simp [hany])]
          exact ih _
            (fun q hq r hr =>
              hcomp q (List.mem_cons_of_mem _ hq) r (List.mem_of_mem_filter hr))
            ⟨p, hp', hmiss⟩
        · rw [if_neg hk]
  · intro df cat_col outcome_col hne hmiss
    rw [get_rates, if_neg, if_pos]
    · rcases hmiss with ⟨c, hc, hcm⟩ | hom
      · refine Bool.or_eq_true_iff.mpr (Or.inl ?_)
        refine List.any_eq_true.mpr ⟨c, hc, ?_⟩
        simp only [List.contains, List.elem_eq_mem]
        simpa using hcm
      · refine Bool.or_eq_true_iff.mpr (Or.inr ?_)
        simp only [List.contains, List.elem_eq_mem]
        simpa using hom
    · simpa [List.isEmpty_iff] using hne

/-- C4 witness: a value filter, a range filter (with comparable bounds)
and a non-empty-group-list rate request each naming the absent column
"zzz" all return the absent result. -/
theorem claim_C4_witness :
    apply_val_filters exTableA [("zzz", [])] = none ∧
    apply_range_filters exTableA [("zzz", Value.int 0, Value.int 1)] =
      Except.ok none ∧
    get_rates exTableA ["zzz"] "a" = Except.ok none := by
  refine ⟨?_, ?_, ?_⟩
  · exact claim_C4_missing_columns.1 exTableA _ ⟨("zzz", []), by simp, by decide⟩
  · exact claim_C4_missing_columns.2.1 exTableA _ (by decide)
      ⟨("zzz", Value.int 0, Value.int 1), by simp, by decide⟩
  · exact claim_C4_missing_columns.2.2 exTableA ["zzz"] "a" (by simp)
      (Or.inl ⟨"zzz", by simp, by decide⟩)

/-! ## Claim C2: summary statistics error handling -/

/-- C2 counterexample.  `get_summary_statistics` checks only the group
columns; with a valid group column and the absent value column "b" it
evaluates `df["b"].mean()` and raises `KeyError` instead of returning
the absent result. -/
theorem claim_C2_counterexample :
    "b" ∉ exTableA.cols ∧
    get_summary_statistics exTableA ["a"] "b" = Except.error "KeyError: b" := by
  exact ⟨by decide, rfl⟩

/-- C2 (amended): `get_summary_statistics` returns the absent result,
without raising, when the group-column list is empty or when some group
column is missing; a missing value column instead raises. -/
theorem claim_C2_group_column_check (df : Table) (group_col_list : List String)
    (summary_col : String)
    (h : group_col_list = [] ∨ ∃ c ∈ group_col_list, c ∉ df.cols) :
    get_summary_statistics df group_col_list summary_col = Except.ok none := by
  rcases h with rfl | ⟨c, hc, hcm⟩
  · rfl
  · rw [get_summary_statistics]
    by_cases he : group_col_list.isEmpty = true
    · rw [if_pos he]
    · rw [if_neg he, if_pos]
      refine List.any_eq_true.mpr ⟨c, hc, ?_⟩
      simp only [List.contains, List.elem_eq_mem]
      simpa using hcm

/-- C2 witness: a request with the absent group column "q" returns the
absent result. -/
theorem claim_C2_witness :
    get_summary_statistics exTableA ["q"] "a" = Except.ok none :=
  claim_C2_group_column_check exTableA ["q"] "a" (Or.inr ⟨"q", by simp, by decide⟩)

/-! ## Claim C6: derivation of the search-conducted flag -/

/-- Reading back the column just written by `setCol`. -/
theorem getCol_setCol (r : Row) (c : String) (v : Value) :
    getCol (setCol r c v) c = v := by
  simp [getCol, setCol, List.lookup]

/-- C6: after the derivation step of `compute_search_share`, row by row:
when the merged table supplies a `search_conducted` column the value is
kept with null replaced by `False`; otherwise the value is `True`
exactly when the row's search type is "Probable Cause" or "Incident to
Arrest" and `False` for every other value (null included). -/
theorem claim_C6 (t : Table) :
    (derive_search_conducted t).rows.map (fun r => getCol r SEARCH_CONDUCTED) =
      t.rows.map (fun r =>
        if t.cols.contains SEARCH_CONDUCTED then
          (if getCol r SEARCH_CONDUCTED = Value.null then Value.bool false
           else getCol r SEARCH_CONDUCTED)
        else
          Value.bool (decide (getCol r SEARCH_TYPE = Value.str "Probable Cause" ∨
            getCol r SEARCH_TYPE = Value.str "Incident to Arrest"))) := by
  rw [derive_search_conducted]
  by_cases h : t.cols.contains SEARCH_CONDUCTED = true
  · rw [if_pos h]
    simp only [List.map_map]
    refine List.map_congr_left ?_
    intro r hr
    have h' : SEARCH_CONDUCTED ∈ t.cols := by
      simpa [List.contains] using h
    simp [Function.comp, getCol_setCol, h']
  · rw [if_neg h]
    simp only [List.map_map]
    refine List.map_congr_left ?_
    intro r hr
    simp only [Function.comp, getCol_setCol, h, if_false, Bool.false_eq_true,
      reduceIte]
    simp [SEARCHING_TYPES, List.contains, or_comm]

/-! ## Claim C7: the per-officer threshold gate -/

/-- Membership in the retained-officer list: a non-null officer value
occurring in the table with at least `M` rows. -/
theorem mem_retainedOfficers (t : Table) (M : Nat) (v : Value) :
    v ∈ retainedOfficers t M ↔
      v ≠ Value.null ∧ v ∈ t.rows.map (fun r => getCol r OFFICER_ID) ∧
        M ≤ (t.rows.filter (fun r => getCol r OFFICER_ID == v)).length := by
  simp only [retainedOfficers, List.mem_filter, List.mem_dedup, decide_eq_true_eq]
  constructor
  · rintro ⟨⟨hmem, hnn⟩, hcnt⟩
    exact ⟨by simpa using hnn, hmem, hcnt⟩
  · rintro ⟨hnn, hmem, hcnt⟩
    exact ⟨⟨hmem, by simpa using hnn⟩, hcnt⟩

/-- C7: `compute_search_share` yields the absent result exactly when no
(non-null) officer identifier has at least `M_stops` rows in the joined
table; and the table handed to the rate computation keeps precisely the
joined rows whose officer is non-null and has at least `M_stops` joined
rows. -/
theorem claim_C7 (stops_df searches_df : Table) (cat_col : List String)
    (M_stops : Nat) :
    (compute_search_share stops_df searches_df cat_col M_stops = Except.ok none ↔
      ¬ ∃ v, v ≠ Value.null ∧
        v ∈ (derive_search_conducted (merge_left stops_df searches_df)).rows.map
            (fun r => getCol r OFFICER_ID) ∧
        M_stops ≤ ((derive_search_conducted (merge_left stops_df searches_df)).rows.filter
            (fun r => getCol r OFFICER_ID == v)).length) ∧
    (restrictOfficers (derive_search_conducted (merge_left stops_df searches_df))
        M_stops).rows =
      (derive_search_conducted (merge_left stops_df searches_df)).rows.filter
        (fun r => !(getCol r OFFICER_ID == Value.null) &&
          decide (M_stops ≤
            ((derive_search_conducted (merge_left stops_df searches_df)).rows.filter
              (fun r2 => getCol r2 OFFICER_ID == getCol r OFFICER_ID)).length)) := by
  constructor
  · rw [compute_search_share]
    by_cases hemp :
        (retainedOfficers (derive_search_conducted (merge_left stops_df searches_df))
          M_stops).isEmpty = true
    · simp only [hemp, if_pos]
      constructor
      · rintro - ⟨v, hnn, hmem, hcnt⟩
        have hv : v ∈ retainedOfficers
            (derive_search_conducted (merge_left stops_df searches_df)) M_stops :=
          (mem_retainedOfficers _ _ _).mpr ⟨hnn, hmem, hcnt⟩
        rw [List.isEmpty_iff.mp hemp] at hv
        cases hv
      · intro _
        trivial
    · have hne :
          retainedOfficers (derive_search_conducted (merge_left stops_df searches_df))
            M_stops ≠ [] := by
        intro hnil
        rw [hnil] at hemp
        exact hemp rfl
      obtain ⟨v, hv⟩ := List.exists_mem_of_ne_nil _ hne
      have hex := (mem_retainedOfficers _ _ _).mp hv
      rw [if_neg hemp]
      constructor
      · intro heq
        exfalso
        cases hg : get_rates
            (restrictOfficers (derive_search_conducted (merge_left stops_df searches_df))
              M_stops) cat_col SEARCH_CONDUCTED with
        | error e => rw [hg] at heq; cases heq
        | ok o =>
          cases o with
          | none => rw [hg] at heq; cases heq
          | some rt =>
            rw [hg] at heq
            simp only [sort_by_true] at heq
            by_cases hc :
                (synthesizeMissing rt).cols.contains (Value.bool true) = true
            · rw [if_pos hc] at heq; cases heq
            · rw [if_neg hc] at heq; cases heq
      · intro hno
        exact absurd ⟨v, hex.1, hex.2.1, hex.2.2⟩ hno
  · rw [restrictOfficers]
    refine List.filter_congr ?_
    intro r hr
    have hmap : getCol r OFFICER_ID ∈
        (derive_search_conducted (merge_left stops_df searches_df)).rows.map
          (fun r2 => getCol r2 OFFICER_ID) :=
      List.mem_map.mpr ⟨r, hr, rfl⟩
    simp only [List.contains, List.elem_eq_mem, mem_retainedOfficers,
      Bool.and_eq_true, Bool.not_eq_true', beq_eq_false_iff_ne, decide_eq_true_eq]
    by_cases hnn : getCol r OFFICER_ID = Value.null
    · simp [hnn]
    · simp only [hnn, not_false_iff, true_and, hmap]
      by_cases hcnt : M_stops ≤
          ((derive_search_conducted (merge_left stops_df searches_df)).rows.filter
            (fun r2 => getCol r2 OFFICER_ID == getCol r OFFICER_ID)).length
      · simp [hcnt, hnn, hmap]
      · simp [hcnt, hnn]

/-! ## Claim C10: missing group column after a satisfied threshold -/

/-- C10: when some officer meets the threshold but a group column is
missing from the joined table, the inner rate computation returns the
absent result and `compute_search_share` then reads `.shape` off it,
raising instead of returning the absent result. -/
theorem claim_C10 (stops_df searches_df : Table) (cat_col : List String)
    (M_stops : Nat)
    (h1 : retainedOfficers (derive_search_conducted (merge_left stops_df searches_df))
      M_stops ≠ [])
    (h2 : ∃ c ∈ cat_col,
      c ∉ (derive_search_conducted (merge_left stops_df searches_df)).cols) :
    get_rates (restrictOfficers (derive_search_conducted (merge_left stops_df searches_df))
        M_stops) cat_col SEARCH_CONDUCTED = Except.ok none ∧
    compute_search_share stops_df searches_df cat_col M_stops =
      Except.error "AttributeError: NoneType object has no attribute shape" := by
  obtain ⟨c, hc, hcm⟩ := h2
  have hne : cat_col ≠ [] := by
    intro hnil
    rw [hnil] at hc
    cases hc
  have hrates : get_rates
      (restrictOfficers (derive_search_conducted (merge_left stops_df searches_df))
        M_stops) cat_col SEARCH_CONDUCTED = Except.ok none := by
    rw [get_rates, if_neg, if_pos]
    · refine Bool.or_eq_true_iff.mpr (Or.inl ?_)
      refine List.any_eq_true.mpr ⟨c, hc, ?_⟩
      simp only [restrictOfficers, List.contains, List.elem_eq_mem]
      simpa using hcm
    · simpa [List.isEmpty_iff] using hne
  refine ⟨hrates, ?_⟩
  rw [compute_search_share, if_neg, hrates]
  simpa [List.isEmpty_iff] using h1

/-- C10 witness: with officer O1 meeting the one-stop threshold and the
absent group column "zzz", the computation raises. -/
theorem claim_C10_witness :
    get_rates (restrictOfficers (derive_search_conducted (merge_left exStops exSearches)) 1)
      ["zzz"] SEARCH_CONDUCTED = Except.ok none ∧
    compute_search_share exStops exSearches ["zzz"] 1 =
      Except.error "AttributeError: NoneType object has no attribute shape" :=
  claim_C10 exStops exSearches ["zzz"] 1 (by decide) ⟨"zzz", by simp, by decide⟩

/-! ## Claims C5 and C8: shape and row sums of the rate frame -/

/-- Inversion of a successful `get_rates`: the result is the rate frame
and its outcome labels were mutually orderable. -/
theorem get_rates_ok_inv (df : Table) (cat_col : List String)
    (outcome_col : String) (rt : RateTable)
    (h : get_rates df cat_col outcome_col = Except.ok (some rt)) :
    rt = rates_table df cat_col outcome_col ∧ allSameCtor rt.cols = true := by
  rw [get_rates] at h
  by_cases h1 : cat_col.isEmpty = true
  · rw [if_pos h1] at h; cases h
  · rw [if_neg h1] at h
    by_cases h2 : ((cat_col.any (fun c => !(df.cols.contains c)))
        || !(df.cols.contains outcome_col)) = true
    · rw [if_pos h2] at h; cases h
    · rw [if_neg h2] at h
      by_cases h3 : (!(allSameCtor (outcomesOf df cat_col outcome_col))) = true
      · rw [if_pos h3] at h; cases h
      · rw [if_neg h3] at h
        simp only [Except.ok.injEq, Option.some.injEq] at h
        subst h
        refine ⟨rfl, ?_⟩
        simpa using h3

/-- Summing `f x / d` over a list divides the summed numerators. -/
theorem sum_map_div {α : Type} (l : List α) (f : α → ℚ) (d : ℚ) :
    (l.map (fun x => f x / d)).sum = (l.map f).sum / d := by
  induction l with
  | nil => simp
  | cons a t ih => simp [ih, add_div]

/-- Summing the indicator of `b` over a duplicate-free list containing
`b` gives one. -/
theorem sum_indicator_nodup {β : Type} [DecidableEq β] (vs : List β) (b : β)
    (hnd : vs.Nodup) (hb : b ∈ vs) :
    (vs.map (fun v => if b = v then (1 : ℕ) else 0)).sum = 1 := by
  induction vs with
  | nil => cases hb
  | cons w ws ih =>
    obtain ⟨hw, hnd'⟩ := List.nodup_cons.mp hnd
    rcases List.mem_cons.mp hb with rfl | hb'
    · simp only [List.map_cons, List.sum_cons, if_pos rfl]
      have hz : (ws.map (fun v => if b = v then (1 : ℕ) else 0)).sum = 0 := by
        refine List.sum_eq_zero ?_
        intro x hx
        obtain ⟨v, hv, rfl⟩ := List.mem_map.mp hx
        rw [if_neg]
        intro hbv
        exact hw (hbv ▸ hv)
      rw [hz]
      simp
    · have hne : b ≠ w := by
        intro hbw
        exact hw (hbw ▸ hb')
      simp only [List.map_cons, List.sum_cons, if_neg hne]
      rw [ih hnd' hb']

/-- Sums of pointwise sums split. -/
theorem sum_map_add_split {β : Type} (vs : List β) (g h : β → ℕ) :
    (vs.map (fun v => g v + h v)).sum = (vs.map g).sum + (vs.map h).sum := by
  induction vs with
  | nil => simp
  | cons w ws ih => simp [ih]; omega

/-- Partitioning a list by the fibers of `f` over a duplicate-free value
list covering its image counts every element exactly once. -/
theorem sum_counts_eq_length {α β : Type} [DecidableEq α] [DecidableEq β]
    (l : List α) (f : α → β) (vs : List β) (hnd : vs.Nodup)
    (hcov : ∀ x ∈ l, f x ∈ vs) :
    (vs.map (fun v => (l.filter (fun x => f x == v)).length)).sum = l.length := by
  induction l with
  | nil =>
    refine List.sum_eq_zero ?_
    intro x hx
    obtain ⟨v, hv, rfl⟩ := List.mem_map.mp hx
    simp
  | cons a t ih =>
    have hca : f a ∈ vs := hcov a (List.mem_cons_self _ _)
    have hct : ∀ x ∈ t, f x ∈ vs := fun x hx => hcov x (List.mem_cons_of_mem _ hx)
    have hsplit : ∀ v ∈ vs, ((a :: t).filter (fun x => f x == v)).length
        = (if f a = v then (1 : ℕ) else 0) + (t.filter (fun x => f x == v)).length := by
      intro v _
      by_cases hfa : f a = v
      · simp [List.filter_cons, hfa]
        omega
      · simp [List.filter_cons, hfa]
    rw [List.map_congr_left hsplit, sum_map_add_split,
      sum_indicator_nodup vs (f a) hnd hca, ih hct]
    simp [Nat.add_comm]

/-- C5: with no missing values in the group columns or the outcome
column, every row of the rate frame returned by `get_rates` sums to
exactly 1 across its outcome columns. -/
theorem claim_C5 (df : Table) (cat_col : List String) (outcome_col : String)
    (rt : RateTable)
    (hgnull : ∀ r ∈ df.rows, ∀ c ∈ cat_col, getCol r c ≠ Value.null)
    (honull : ∀ r ∈ df.rows, getCol r outcome_col ≠ Value.null)
    (h : get_rates df cat_col outcome_col = Except.ok (some rt)) :
    ∀ gr ∈ rt.rows, (gr.2.map Prod.snd).sum = 1 := by
  obtain ⟨hrt, -⟩ := get_rates_ok_inv df cat_col outcome_col rt h
  subst hrt
  have hgr : groupRowsOf df cat_col = df.rows := by
    rw [groupRowsOf]
    refine List.filter_eq_self.mpr ?_
    intro r hr
    refine List.all_eq_true.mpr ?_
    intro c hc
    simpa using hgnull r hr c hc
  have hor : outRowsOf df cat_col outcome_col = df.rows := by
    rw [outRowsOf, hgr]
    refine List.filter_eq_self.mpr ?_
    intro r hr
    simpa using honull r hr
  intro gr hmem
  rw [rates_table] at hmem
  obtain ⟨g, hg, rfl⟩ := List.mem_map.mp hmem
  simp only [List.map_map]
  have hmap : ((outcomesOf df cat_col outcome_col).map
      (Prod.snd ∘ fun v => (v, rateOf df cat_col outcome_col g v))).sum
      = ((outcomesOf df cat_col outcome_col).map (fun v =>
          ((((outRowsOf df cat_col outcome_col).filter (fun r =>
              rowKey cat_col r == g)).filter
            (fun r => getCol r outcome_col == v)).length : ℚ) /
          (((groupRowsOf df cat_col).filter
            (fun r => rowKey cat_col r == g)).length : ℚ))).sum := by
    refine congrArg List.sum (List.map_congr_left ?_)
    intro v _
    show rateOf df cat_col outcome_col g v = _
    rw [rateOf, List.filter_filter]
    have hcomm : List.filter (fun r =>
        rowKey cat_col r == g && getCol r outcome_col == v)
        (outRowsOf df cat_col outcome_col)
        = List.filter (fun a => getCol a outcome_col == v && rowKey cat_col a == g)
          (outRowsOf df cat_col outcome_col) :=
      List.filter_congr (fun r _ => by rw [Bool.and_comm])
    rw [hcomm]
  rw [hmap, sum_map_div]
  have hcast : ((outcomesOf df cat_col outcome_col).map (fun v =>
      ((((outRowsOf df cat_col outcome_col).filter (fun r =>
          rowKey cat_col r == g)).filter
        (fun r => getCol r outcome_col == v)).length : ℚ))).sum
      = ((((outcomesOf df cat_col outcome_col).map (fun v =>
          (((outRowsOf df cat_col outcome_col).filter (fun r =>
              rowKey cat_col r == g)).filter
            (fun r => getCol r outcome_col == v)).length)).sum : ℕ) : ℚ) := by
    rw [Nat.cast_list_sum, List.map_map]
    rfl
  rw [hcast]
  have hcount : ((outcomesOf df cat_col outcome_col).map (fun v =>
      (((outRowsOf df cat_col outcome_col).filter (fun r =>
          rowKey cat_col r == g)).filter
        (fun r => getCol r outcome_col == v)).length)).sum
      = ((outRowsOf df cat_col outcome_col).filter (fun r =>
          rowKey cat_col r == g)).length := by
    refine sum_counts_eq_length _ (fun r => getCol r outcome_col) _
      (List.nodup_dedup _) ?_
    intro x hx
    rw [outcomesOf]
    refine List.mem_dedup.mpr ?_
    exact List.mem_map.mpr ⟨x, List.mem_of_mem_filter hx, rfl⟩
  rw [hcount, hor, hgr]
  have hpos : 0 < (df.rows.filter (fun r => rowKey cat_col r == g)).length := by
    rw [keysOf, hor] at hg
    obtain ⟨r, hr, hkey⟩ := List.mem_map.mp (List.mem_dedup.mp hg)
    have hrf : r ∈ df.rows.filter (fun r2 => rowKey cat_col r2 == g) :=
      List.mem_filter.mpr ⟨hr, by simp [hkey]⟩
    exact List.length_pos.mpr (List.ne_nil_of_mem hrf)
  rw [div_self]
  exact Nat.cast_ne_zero.mpr (Nat.pos_iff_ne_zero.mp hpos)

/-- C5 witness: in the rate frame of `exT5` grouped by race, the row of
group W sums to 1 across the outcome columns. -/
theorem claim_C5_witness : (rowW.2.map Prod.snd).sum = 1 := by
  have hmem : rowW ∈ (rates_table exT5 [DRIVER_RACE] STOP_OUTCOME).rows := by
    rw [rates_table]
    exact List.mem_map.mpr ⟨[Value.str "W"], by decide, rfl⟩
  exact claim_C5 exT5 [DRIVER_RACE] STOP_OUTCOME
    (rates_table exT5 [DRIVER_RACE] STOP_OUTCOME)
    (by decide) (by decide) rfl rowW hmem

/-- Association-list lookup over a key-tagging map hits the tagged key. -/
theorem lookup_map_pair {β γ : Type} [DecidableEq β] (vs : List β) (f : β → γ)
    (v : β) (hv : v ∈ vs) :
    List.lookup v (vs.map (fun u => (u, f u))) = some (f v) := by
  induction vs with
  | nil => cases hv
  | cons w ws ih =>
    by_cases hvw : v = w
    · subst hvw
      simp [List.lookup]
    · have hv' : v ∈ ws := by
        rcases List.mem_cons.mp hv with h | h
        · exact absurd h hvw
        · exact h
      simp only [List.map_cons, List.lookup]
      have hbeq : (v == w) = false := by simpa using hvw
      rw [hbeq]
      exact ih hv'

/-- C8: with no missing values in the group columns or the outcome
column, the rate frame has exactly one row per distinct group-key
combination of the input and one column per distinct outcome value, and
a (group, outcome) combination with no input row reports rate 0, not a
missing entry. -/
theorem claim_C8 (df : Table) (cat_col : List String) (outcome_col : String)
    (rt : RateTable)
    (hgnull : ∀ r ∈ df.rows, ∀ c ∈ cat_col, getCol r c ≠ Value.null)
    (honull : ∀ r ∈ df.rows, getCol r outcome_col ≠ Value.null)
    (h : get_rates df cat_col outcome_col = Except.ok (some rt)) :
    rt.rows.map Prod.fst = (df.rows.map (rowKey cat_col)).dedup ∧
    rt.cols = (df.rows.map (fun r => getCol r outcome_col)).dedup ∧
    ∀ gr ∈ rt.rows, ∀ v ∈ rt.cols,
      (df.rows.filter (fun r =>
        rowKey cat_col r == gr.1 && getCol r outcome_col == v)).length = 0 →
      List.lookup v gr.2 = some 0 := by
  obtain ⟨hrt, -⟩ := get_rates_ok_inv df cat_col outcome_col rt h
  subst hrt
  have hgr : groupRowsOf df cat_col = df.rows := by
    rw [groupRowsOf]
    refine List.filter_eq_self.mpr ?_
    intro r hr
    refine List.all_eq_true.mpr ?_
    intro c hc
    simpa using hgnull r hr c hc
  have hor : outRowsOf df cat_col outcome_col = df.rows := by
    rw [outRowsOf, hgr]
    refine List.filter_eq_self.mpr ?_
    intro r hr
    simpa using honull r hr
  refine ⟨?_, ?_, ?_⟩
  · rw [rates_table, List.map_map]
    show (keysOf df cat_col outcome_col).map (fun g => g) = _
    rw [List.map_id_fun', keysOf, hor]
    rfl
  · rw [rates_table]
    show outcomesOf df cat_col outcome_col = _
    rw [outcomesOf, hor]
  · intro gr hmem v hv habs
    rw [rates_table] at hmem
    obtain ⟨g, hg, rfl⟩ := List.mem_map.mp hmem
    have hv' : v ∈ outcomesOf df cat_col outcome_col := hv
    rw [lookup_map_pair _ _ _ hv']
    refine congrArg some ?_
    rw [rateOf, hor]
    have hz : (df.rows.filter (fun r =>
        rowKey cat_col r == g && getCol r outcome_col == v)).length = 0 := habs
    rw [hz]
    simp

/-- C8 witness: the rate frame of `exT5` grouped by race has one row
per distinct race and one column per distinct outcome, and the (B,
Citation) combination, absent from the input, reports rate 0. -/
theorem claim_C8_witness :
    (rates_table exT5 [DRIVER_RACE] STOP_OUTCOME).rows.map Prod.fst =
      (exT5.rows.map (rowKey [DRIVER_RACE])).dedup ∧
    (rates_table exT5 [DRIVER_RACE] STOP_OUTCOME).cols =
      (exT5.rows.map (fun r => getCol r STOP_OUTCOME)).dedup ∧
    List.lookup (Value.str "Citation") rowB.2 = some 0 := by
  have H := claim_C8 exT5 [DRIVER_RACE] STOP_OUTCOME
    (rates_table exT5 [DRIVER_RACE] STOP_OUTCOME) (by decide) (by decide) rfl
  refine ⟨H.1, H.2.1, ?_⟩
  have hmem : rowB ∈ (rates_table exT5 [DRIVER_RACE] STOP_OUTCOME).rows := by
    rw [rates_table]
    exact List.mem_map.mpr ⟨[Value.str "B"], by decide, rfl⟩
  exact H.2.2 rowB hmem (Value.str "Citation") (by decide) (by decide)

/-! ## Claim C3: both outcome columns present, rows sorted by true rate -/

/-- Membership through `insertLe`. -/
theorem mem_insertLe {α : Type} (le : α → α → Bool) (x : α) (l : List α)
    (y : α) : y ∈ insertLe le x l ↔ y = x ∨ y ∈ l := by
  induction l with
  | nil => simp [insertLe]
  | cons z zs ih =>
    rw [insertLe]
    by_cases h : le x z = true
    · rw [if_pos h]
      simp [List.mem_cons]
    · rw [if_neg h]
      simp only [List.mem_cons, ih]
      tauto

/-- `insertLe` preserves sortedness for a total transitive comparison. -/
theorem pairwise_insertLe {α : Type} (le : α → α → Bool)
    (htot : ∀ a b, le a b = true ∨ le b a = true)
    (htrans : ∀ a b c, le a b = true → le b c = true → le a c = true)
    (x : α) (l : List α) (hl : l.Pairwise (fun a b => le a b = true)) :
    (insertLe le x l).Pairwise (fun a b => le a b = true) := by
  induction l with
  | nil => simp [insertLe]
  | cons y ys ih =>
    obtain ⟨hy, hys⟩ := List.pairwise_cons.mp hl
    rw [insertLe]
    by_cases h : le x y = true
    · rw [if_pos h]
      refine List.pairwise_cons.mpr ⟨?_, hl⟩
      intro z hz
      rcases List.mem_cons.mp hz with rfl | hz'
      · exact h
      · exact htrans x y z h (hy z hz')
    · rw [if_neg h]
      refine List.pairwise_cons.mpr ⟨?_, ih hys⟩
      intro z hz
      rcases (mem_insertLe le x ys z).mp hz with hzx | hz'
      · rw [hzx]
        rcases htot x y with hxy | hyx
        · exact absurd hxy h
        · exact hyx
      · exact hy z hz'

/-- Insertion sort produces a sorted list for a total transitive
comparison. -/
theorem pairwise_sortLe {α : Type} (le : α → α → Bool)
    (htot : ∀ a b, le a b = true ∨ le b a = true)
    (htrans : ∀ a b c, le a b = true → le b c = true → le a c = true)
    (l : List α) : (sortLe le l).Pairwise (fun a b => le a b = true) := by
  induction l with
  | nil => simp [sortLe]
  | cons x xs ih => exact pairwise_insertLe le htot htrans x (sortLe le xs) ih

/-- `sameCtor` is reflexive. -/
theorem sameCtor_refl (v : Value) : sameCtor v v = true := by
  cases v <;> rfl

/-- `sameCtor` is symmetric. -/
theorem sameCtor_symm (v w : Value) (h : sameCtor v w = true) :
    sameCtor w v = true := by
  cases v <;> cases w <;> first | rfl | exact h

/-- Any two members of a mutually orderable list are mutually orderable. -/
theorem allSameCtor_mem (l : List Value) (hl : allSameCtor l = true)
    (a b : Value) (ha : a ∈ l) (hb : b ∈ l) : sameCtor a b = true := by
  induction l with
  | nil => cases ha
  | cons v vs ih =>
    rw [allSameCtor, Bool.and_eq_true, List.all_eq_true] at hl
    obtain ⟨hall, hrest⟩ := hl
    rcases List.mem_cons.mp ha with ha0 | ha' <;>
      rcases List.mem_cons.mp hb with hb0 | hb'
    · rw [ha0, hb0]
      exact sameCtor_refl v
    · rw [ha0]
      exact hall b hb'
    · rw [hb0]
      exact sameCtor_symm v a (hall a ha')
    · exact ih hrest ha' hb'

/-- A duplicate-free, mutually orderable list of labels containing
`True` and longer than one element also contains `False`. -/
theorem bool_false_mem (l : List Value) (hnd : l.Nodup)
    (hsc : allSameCtor l = true) (ht : Value.bool true ∈ l)
    (hlen : l.length ≠ 1) : Value.bool false ∈ l := by
  match l with
  | [] => cases ht
  | [a] => exact absurd rfl hlen
  | a :: b :: u =>
    have hab : a ≠ b := by
      intro hEq
      exact (List.nodup_cons.mp hnd).1 (hEq ▸ List.mem_cons_self _ _)
    have hsa : sameCtor (Value.bool true) a = true :=
      allSameCtor_mem _ hsc _ _ ht (List.mem_cons_self _ _)
    have hsb : sameCtor (Value.bool true) b = true :=
      allSameCtor_mem _ hsc _ _ ht
        (List.mem_cons_of_mem _ (List.mem_cons_self _ _))
    obtain ⟨x, rfl⟩ : ∃ x, a = Value.bool x := by
      cases a with
      | bool x => exact ⟨x, rfl⟩
      | null => cases hsa
      | int n => cases hsa
      | str s => cases hsa
    obtain ⟨y, rfl⟩ : ∃ y, b = Value.bool y := by
      cases b with
      | bool y => exact ⟨y, rfl⟩
      | null => cases hsb
      | int n => cases hsb
      | str s => cases hsb
    cases x with
    | false => exact List.mem_cons_self _ _
    | true =>
      cases y with
      | false => exact List.mem_cons_of_mem _ (List.mem_cons_self _ _)
      | true => exact absurd rfl hab

/-- C3: whenever `compute_search_share` returns a table, that table has
both a `True` and a `False` outcome column and its rows are sorted
ascending by the `True` (search-conducted) rate. -/
theorem claim_C3 (stops_df searches_df : Table) (cat_col : List String)
    (M_stops : Nat) (rt : RateTable)
    (h : compute_search_share stops_df searches_df cat_col M_stops =
      Except.ok (some rt)) :
    Value.bool true ∈ rt.cols ∧ Value.bool false ∈ rt.cols ∧
    rt.rows.Pairwise rateLeTrue := by
  rw [compute_search_share] at h
  by_cases hemp :
      (retainedOfficers (derive_search_conducted (merge_left stops_df searches_df))
        M_stops).isEmpty = true
  · rw [if_pos hemp] at h
    cases h
  · rw [if_neg hemp] at h
    cases hg : get_rates
        (restrictOfficers (derive_search_conducted (merge_left stops_df searches_df))
          M_stops) cat_col SEARCH_CONDUCTED with
    | error e => rw [hg] at h; cases h
    | ok o =>
      cases o with
      | none => rw [hg] at h; cases h
      | some rt1 =>
        rw [hg] at h
        obtain ⟨hrt1, hsc⟩ :=
          get_rates_ok_inv _ cat_col SEARCH_CONDUCTED rt1 hg
        simp only [sort_by_true] at h
        by_cases hct :
            (synthesizeMissing rt1).cols.contains (Value.bool true) = true
        · rw [if_pos hct] at h
          simp only [Except.ok.injEq, Option.some.injEq] at h
          subst h
          have htrue : Value.bool true ∈ (synthesizeMissing rt1).cols := by
            simpa [List.contains] using hct
          have hnd1 : rt1.cols.Nodup := by
            rw [hrt1]
            exact List.nodup_dedup _
          have hfalse : Value.bool false ∈ (synthesizeMissing rt1).cols := by
            rw [synthesizeMissing]
            by_cases hlen : rt1.cols.length = 1
            · rw [if_pos hlen]
              by_cases hf : rt1.cols.contains (Value.bool false) = true
              · rw [if_pos hf]
                refine List.mem_append.mpr (Or.inl ?_)
                simpa [List.contains] using hf
              · rw [if_neg hf]
                exact List.mem_append.mpr (Or.inr (List.mem_cons_self _ _))
            · rw [if_neg hlen]
              have htrue1 : Value.bool true ∈ rt1.cols := by
                rw [synthesizeMissing, if_neg hlen] at htrue
                exact htrue
              exact bool_false_mem rt1.cols hnd1 hsc htrue1 hlen
          refine ⟨htrue, hfalse, ?_⟩
          have hpw := pairwise_sortLe rateLeTrueB
            (fun a b => by
              rw [rateLeTrueB, rateLeTrueB, decide_eq_true_eq, decide_eq_true_eq]
              exact le_total _ _)
            (fun a b c hab hbc => by
              rw [rateLeTrueB, decide_eq_true_eq] at hab hbc ⊢
              exact le_trans hab hbc)
            (synthesizeMissing rt1).rows
          refine hpw.imp ?_
          intro a b hab
          rw [rateLeTrueB, decide_eq_true_eq] at hab
          exact hab
        · rw [if_neg hct] at h
          cases h

/-- C3 witness: on the single-race example the returned frame carries
both outcome columns and is sorted by the `True` rate. -/
theorem claim_C3_witness :
    Value.bool true ∈ rtShareSorted.cols ∧
    Value.bool false ∈ rtShareSorted.cols ∧
    rtShareSorted.rows.Pairwise rateLeTrue :=
  claim_C3 exStopsW exSearches [DRIVER_RACE] 1 rtShareSorted rfl
